import Mathlib

/-!
Verification of the LC-3 execution engine in `src/vm_spec.rs`.

The engine (`tick`, `tick_op`, `trap`, `set_cond_reg`, `init`, `run`) is
translated from the source.  The engine is generic over the register/memory
capability `vm::VmMem`, the decoder `ops_parse` and the character I/O module
`io`, none of which are under `src/`; those are modelled from the spec's
interface descriptions (§6) and marked as such in their doc comments.

Machine words are 16-bit; they are represented as `Nat` with an explicit
`% 65536` wherever the Rust code relies on the `u16` type or on
`wrapping_add`.
-/

deriving instance DecidableEq for Except

namespace Lc3

/-- A register identifier: a newtype over a small index, as in `ops::Register`.
Indices 0–7 are the general registers, 8 the PC, 9 the condition register. -/
structure Register where
  r : Nat
deriving DecidableEq, Repr

abbrev Reg := Register

/-- The second operand of ADD/AND: a register or a sign-extended immediate,
as in `ops::Argument`. -/
inductive Argument where
  | Register (sr2 : Reg)
  | Immediate (imm : Nat)
deriving DecidableEq, Repr

/-- The decoded instruction set, as in `ops::Operation`: one variant per
opcode, carrying exactly the fields the encoding defines.  Offsets and
immediates are already sign-extended to 16-bit words by the decoder. -/
inductive Operation where
  | OpAdd (dr sr1 : Register) (arg : Argument)
  | OpAnd (dr sr1 : Register) (arg : Argument)
  | OpBr (n z p : Bool) (pc_offset : Nat)
  | OpJmp (base_r : Register)
  | OpJsr (pc_offset : Nat)
  | OpJsrr (base_r : Register)
  | OpLd (dr : Register) (pc_offset : Nat)
  | OpLdi (dr : Register) (pc_offset : Nat)
  | OpLdr (dr base_r : Register) (offset : Nat)
  | OpLea (dr : Register) (pc_offset : Nat)
  | OpNot (dr sr : Register)
  | OpRti
  | OpSt (sr : Register) (pc_offset : Nat)
  | OpSti (sr : Register) (pc_offset : Nat)
  | OpStr (sr base_r : Register) (offset : Nat)
  | OpTrap (trap_vector : Nat)
deriving DecidableEq, Repr

/-- Decode failure, as in `ops_parse::ParseError` (an unrecognized bit
pattern); the offending word is carried for reporting. -/
inductive ParseError where
  | UnknownOpcode (word : Nat)
deriving DecidableEq, Repr

/-- I/O failure, as in `io::IoError`. -/
inductive IoError where
  | Failed
deriving DecidableEq, Repr

/-- The two causes a step can fail with, as in `vm_spec::TickError`. -/
inductive TickError where
  | Io (e : IoError)
  | Parse (e : ParseError)
deriving DecidableEq, Repr

/-- Modelled from the spec: the state behind the external register/memory
capability (`vm::VmMem`, not under `src/`) together with the character
streams behind the external I/O capability (`io`, not under `src/`).
`regs` is the 10-slot register file indexed by register number, `mem` the
flat 64K-word memory indexed by address; `input` is the pending byte stream
read by `getc`, `output` the bytes emitted so far by `putc`/`puts`. -/
structure Vm where
  regs : Nat → Nat
  mem : Nat → Nat
  input : List Nat
  output : List Nat

def R0 : Register := ⟨0⟩
def R7 : Register := ⟨7⟩
def R_PC : Register := ⟨8⟩
def R_COND : Register := ⟨9⟩
def R_PC_INIT : Nat := 0x3000

def COND_P : Nat := 1
def COND_Z : Nat := 2
def COND_N : Nat := 4

/-- Modelled from the spec: `read_reg(id) → word` of the register/memory
capability (§6). -/
def read_reg (register : Register) (vm : Vm) : Nat :=
  vm.regs register.r

/-- Modelled from the spec: `write_reg(id, word)` of the register/memory
capability (§6).  The stored value is a `u16`, i.e. reduced mod 65536. -/
def write_reg (register : Register) (value : Nat) (vm : Vm) : Vm :=
  { vm with regs := fun j => if j = register.r then value % 65536 else vm.regs j }

/-- Modelled from the spec: `read_mem(addr) → word` of the register/memory
capability (§6); the `u16` address space means the index is mod 65536. -/
def read_mem (addr : Nat) (vm : Vm) : Nat :=
  vm.mem (addr % 65536)

/-- Modelled from the spec: `write_mem(addr, word)` of the register/memory
capability (§6). -/
def write_mem (addr : Nat) (value : Nat) (vm : Vm) : Vm :=
  { vm with mem := fun j => if j = addr % 65536 then value % 65536 else vm.mem j }

/-- Modelled from the spec: the helper scanning one character per word from
`addr` up to (excluding) the first zero word (`read_terminated_bytes`, §6).
Fuel bounds the scan by the address-space size. -/
def c_str_aux (vm : Vm) (addr : Nat) : Nat → List Nat
  | 0 => []
  | fuel + 1 =>
    let w := read_mem addr vm
    if w = 0 then [] else w % 256 :: c_str_aux vm (addr + 1) fuel

/-- Modelled from the spec: `read_terminated_bytes(addr)` (§6). -/
def c_str (addr : Nat) (vm : Vm) : List Nat :=
  c_str_aux vm addr 65536

/-- Modelled from the spec: blocking byte input `io::getc` (§6); fails when
the input stream has no byte to deliver. -/
def getc (vm : Vm) : Except IoError (Nat × Vm) :=
  match vm.input with
  | [] => .error .Failed
  | b :: rest => .ok (b % 256, { vm with input := rest })

/-- Modelled from the spec: byte output `io::putc` (§6). -/
def putc (b : Nat) (vm : Vm) : Vm :=
  { vm with output := vm.output ++ [b % 256] }

/-- Modelled from the spec: byte-sequence output `io::puts` (§6). -/
def puts (bs : List Nat) (vm : Vm) : Vm :=
  { vm with output := vm.output ++ bs }

/-- Translated from `set_cond_reg` in `vm_spec.rs`: read the given register
and set the condition register to exactly one of Z (value 0), P (value
below `1 << 15`) or N (otherwise). -/
def set_cond_reg (vm : Vm) (register : Register) : Vm :=
  let value := read_reg register vm
  if value = 0 then
    write_reg R_COND COND_Z vm
  else if value < 32768 then
    write_reg R_COND COND_P vm
  else
    write_reg R_COND COND_N vm

/-- Translated from `init` in `vm_spec.rs`: PC to the reset address, flags
to Zero. -/
def init (vm : Vm) : Vm :=
  write_reg R_COND COND_Z (write_reg R_PC R_PC_INIT vm)

/-- Translated from `trap` in `vm_spec.rs`.  `none` models the `panic!` on
an unimplemented trap vector; `some (.ok false, _)` is the halt outcome. -/
def trap (trap_vector : Nat) (vm : Vm) : Option ((Except IoError Bool) × Vm) :=
  if trap_vector = 0x20 then
    match getc vm with
    | .error e => some (.error e, vm)
    | .ok (b, vm1) => some (.ok true, write_reg R0 b vm1)
  else if trap_vector = 0x21 then
    some (.ok true, putc (read_reg R0 vm % 256) vm)
  else if trap_vector = 0x22 then
    some (.ok true, puts (c_str (read_reg R0 vm) vm) vm)
  else if trap_vector = 0x25 then
    some (.ok false, vm)
  else
    none

/-- Translated from `tick_op` in `vm_spec.rs`: the per-opcode effect,
executed after the PC has been incremented by `tick`.  `wrapping_add`
becomes `(_ + _) % 65536`; `none` models the `panic!` on RTI (and, through
`trap`, on an unimplemented trap vector). -/
def tick_op (op : Operation) (vm : Vm) : Option ((Except IoError Bool) × Vm) :=
  match op with
  | .OpAdd dr sr1 (.Register sr2) =>
    let vm1 := write_reg dr ((read_reg sr1 vm + read_reg sr2 vm) % 65536) vm
    some (.ok true, set_cond_reg vm1 dr)
  | .OpAdd dr sr1 (.Immediate imm) =>
    let vm1 := write_reg dr ((read_reg sr1 vm + imm) % 65536) vm
    some (.ok true, set_cond_reg vm1 dr)
  | .OpAnd dr sr1 (.Register sr2) =>
    let vm1 := write_reg dr (read_reg sr1 vm &&& read_reg sr2 vm) vm
    some (.ok true, set_cond_reg vm1 dr)
  | .OpAnd dr sr1 (.Immediate imm) =>
    let vm1 := write_reg dr (read_reg sr1 vm &&& imm) vm
    some (.ok true, set_cond_reg vm1 dr)
  | .OpBr n z p pc_offset =>
    let cond := read_reg R_COND vm
    if n && decide (COND_N &&& cond ≠ 0) || z && decide (COND_Z &&& cond ≠ 0)
        || p && decide (COND_P &&& cond ≠ 0) then
      some (.ok true, write_reg R_PC ((read_reg R_PC vm + pc_offset) % 65536) vm)
    else
      some (.ok true, vm)
  | .OpJmp base_r =>
    some (.ok true, write_reg R_PC (read_reg base_r vm) vm)
  | .OpJsr pc_offset =>
    let vm1 := write_reg R7 (read_reg R_PC vm) vm
    some (.ok true, write_reg R_PC ((read_reg R_PC vm1 + pc_offset) % 65536) vm1)
  | .OpJsrr base_r =>
    let vm1 := write_reg R7 (read_reg R_PC vm) vm
    some (.ok true, write_reg R_PC (read_reg base_r vm1) vm1)
  | .OpLd dr pc_offset =>
    let vm1 := write_reg dr (read_mem ((read_reg R_PC vm + pc_offset) % 65536) vm) vm
    some (.ok true, set_cond_reg vm1 dr)
  | .OpLdi dr pc_offset =>
    let address := read_mem ((read_reg R_PC vm + pc_offset) % 65536) vm
    let vm1 := write_reg dr (read_mem address vm) vm
    some (.ok true, set_cond_reg vm1 dr)
  | .OpLdr dr base_r offset =>
    let vm1 := write_reg dr (read_mem ((read_reg base_r vm + offset) % 65536) vm) vm
    some (.ok true, set_cond_reg vm1 dr)
  | .OpLea dr pc_offset =>
    let vm1 := write_reg dr ((read_reg R_PC vm + pc_offset) % 65536) vm
    some (.ok true, set_cond_reg vm1 dr)
  | .OpNot dr sr =>
    let vm1 := write_reg dr (65535 - read_reg sr vm % 65536) vm
    some (.ok true, set_cond_reg vm1 dr)
  | .OpRti => none
  | .OpSt sr pc_offset =>
    some (.ok true, write_mem ((read_reg R_PC vm + pc_offset) % 65536) (read_reg sr vm) vm)
  | .OpSti sr pc_offset =>
    let address := read_mem ((read_reg R_PC vm + pc_offset) % 65536) vm
    some (.ok true, write_mem address (read_reg sr vm) vm)
  | .OpStr sr base_r offset =>
    some (.ok true, write_mem ((read_reg base_r vm + offset) % 65536) (read_reg sr vm) vm)
  | .OpTrap trap_vector =>
    let vm1 := write_reg R7 (read_reg R_PC vm) vm
    trap trap_vector vm1

/-- Sign-extend a 5-bit field to a 16-bit word. -/
def sext5 (v : Nat) : Nat := if v < 16 then v else v + 65504

/-- Sign-extend a 6-bit field to a 16-bit word. -/
def sext6 (v : Nat) : Nat := if v < 32 then v else v + 65472

/-- Sign-extend a 9-bit field to a 16-bit word. -/
def sext9 (v : Nat) : Nat := if v < 256 then v else v + 65024

/-- Sign-extend an 11-bit field to a 16-bit word. -/
def sext11 (v : Nat) : Nat := if v < 1024 then v else v + 63488

/-- Modelled from the spec: the decoder capability `Operation::parse` of
`ops_parse` (not under `src/`), following the fixed 4-bit-opcode,
field-packed encoding described in §6: opcode in the top 4 bits; ADD/AND
select register vs 5-bit sign-extended immediate via bit 5; BR packs three
condition bits and a 9-bit signed offset; JSR/JSRR select via bit 11
between an 11-bit offset and a base register; LD/LDI/ST/STI/LEA carry a
9-bit signed PC-relative offset; LDR/STR a 6-bit signed base offset; TRAP
an 8-bit vector.  A word whose top 4 bits match no known opcode (the
reserved pattern 13) is a decode error. -/
def parse (w0 : Nat) : Except ParseError Operation :=
  let w := w0 % 65536
  let opc := w / 4096
  if opc = 0 then
    .ok (.OpBr (w / 2048 % 2 == 1) (w / 1024 % 2 == 1) (w / 512 % 2 == 1) (sext9 (w % 512)))
  else if opc = 1 then
    .ok (.OpAdd ⟨w / 512 % 8⟩ ⟨w / 64 % 8⟩
      (if w / 32 % 2 = 1 then .Immediate (sext5 (w % 32)) else .Register ⟨w % 8⟩))
  else if opc = 2 then
    .ok (.OpLd ⟨w / 512 % 8⟩ (sext9 (w % 512)))
  else if opc = 3 then
    .ok (.OpSt ⟨w / 512 % 8⟩ (sext9 (w % 512)))
  else if opc = 4 then
    .ok (if w / 2048 % 2 = 1 then .OpJsr (sext11 (w % 2048)) else .OpJsrr ⟨w / 64 % 8⟩)
  else if opc = 5 then
    .ok (.OpAnd ⟨w / 512 % 8⟩ ⟨w / 64 % 8⟩
      (if w / 32 % 2 = 1 then .Immediate (sext5 (w % 32)) else .Register ⟨w % 8⟩))
  else if opc = 6 then
    .ok (.OpLdr ⟨w / 512 % 8⟩ ⟨w / 64 % 8⟩ (sext6 (w % 64)))
  else if opc = 7 then
    .ok (.OpStr ⟨w / 512 % 8⟩ ⟨w / 64 % 8⟩ (sext6 (w % 64)))
  else if opc = 8 then
    .ok .OpRti
  else if opc = 9 then
    .ok (.OpNot ⟨w / 512 % 8⟩ ⟨w / 64 % 8⟩)
  else if opc = 10 then
    .ok (.OpLdi ⟨w / 512 % 8⟩ (sext9 (w % 512)))
  else if opc = 11 then
    .ok (.OpSti ⟨w / 512 % 8⟩ (sext9 (w % 512)))
  else if opc = 12 then
    .ok (.OpJmp ⟨w / 64 % 8⟩)
  else if opc = 14 then
    .ok (.OpLea ⟨w / 512 % 8⟩ (sext9 (w % 512)))
  else if opc = 15 then
    .ok (.OpTrap (w % 256))
  else
    .error (.UnknownOpcode w)

/-- Translated from `tick` in `vm_spec.rs`: read the PC, fetch and decode
the word there (a decode failure returns `TickError::Parse` with the state
untouched), increment the PC by one (wrapping), then apply the opcode
effect.  `none` models a `panic!` inside `tick_op`. -/
def tick (vm : Vm) : Option ((Except TickError Bool) × Vm) :=
  let pc := read_reg R_PC vm
  match parse (read_mem pc vm) with
  | .error e => some (.error (.Parse e), vm)
  | .ok op =>
    let vm1 := write_reg R_PC ((pc + 1) % 65536) vm
    match tick_op op vm1 with
    | none => none
    | some (.error e, vm2) => some (.error (.Io e), vm2)
    | some (.ok b, vm2) => some (.ok b, vm2)

/-- Translated from `run` in `vm_spec.rs`: step until `tick` reports halt
(`Ok(false)`, returned as success) or an error.  The source loop may not
terminate, so the model takes fuel; `none` covers both fuel exhaustion and
a panic inside a step. -/
def run (fuel : Nat) (vm : Vm) : Option ((Except TickError Unit) × Vm) :=
  match fuel with
  | 0 => none
  | fuel + 1 =>
    match tick vm with
    | none => none
    | some (.ok true, vm1) => run fuel vm1
    | some (.ok false, vm1) => some (.ok (), vm1)
    | some (.error e, vm1) => some (.error e, vm1)

/-- Well-formed machine state: every register and memory cell holds a
16-bit value, as the `u16` typing of `vm::VmMem` guarantees in the source. -/
def WF (vm : Vm) : Prop :=
  (∀ i, vm.regs i < 65536) ∧ (∀ a, vm.mem a < 65536)

theorem read_reg_write_reg (r s : Register) (v : Nat) (vm : Vm) :
    read_reg r (write_reg s v vm) = if r.r = s.r then v % 65536 else read_reg r vm := by
  simp [read_reg, write_reg]

theorem read_mem_write_reg (a : Nat) (s : Register) (v : Nat) (vm : Vm) :
    read_mem a (write_reg s v vm) = read_mem a vm := by
  simp [read_mem, write_reg]

theorem read_reg_write_mem (r : Register) (a v : Nat) (vm : Vm) :
    read_reg r (write_mem a v vm) = read_reg r vm := by
  simp [read_reg, write_mem]

theorem read_mem_write_mem (a b v : Nat) (vm : Vm) :
    read_mem a (write_mem b v vm) =
      if a % 65536 = b % 65536 then v % 65536 else read_mem a vm := by
  simp [read_mem, write_mem]

/-- The flag value `set_cond_reg` chooses for a written value. -/
theorem read_reg_set_cond_reg (r s : Register) (vm : Vm) :
    read_reg r (set_cond_reg vm s) =
      if r.r = 9 then
        (if read_reg s vm = 0 then 2 else if read_reg s vm < 32768 then 1 else 4)
      else read_reg r vm := by
  by_cases hv : read_reg s vm = 0 <;> by_cases hv2 : read_reg s vm < 32768 <;>
    simp [set_cond_reg, read_reg_write_reg, R_COND, COND_Z, COND_P, COND_N, hv, hv2]

theorem read_mem_set_cond_reg (a : Nat) (s : Register) (vm : Vm) :
    read_mem a (set_cond_reg vm s) = read_mem a vm := by
  by_cases hv : read_reg s vm = 0 <;> by_cases hv2 : read_reg s vm < 32768 <;>
    simp [set_cond_reg, read_mem_write_reg, hv, hv2]

theorem mod_add_mod_eq (a k : Nat) : (a % 65536 + k) % 65536 = (a + k) % 65536 := by
  omega

theorem WF_read_mem (a : Nat) (vm : Vm) (hwf : WF vm) : read_mem a vm < 65536 :=
  hwf.2 _

theorem WF_read_reg (r : Register) (vm : Vm) (hwf : WF vm) : read_reg r vm < 65536 :=
  hwf.1 _

theorem read_mem_mod (a : Nat) (vm : Vm) (hwf : WF vm) :
    read_mem a vm % 65536 = read_mem a vm :=
  Nat.mod_eq_of_lt (hwf.2 _)

theorem read_reg_mod (r : Register) (vm : Vm) (hwf : WF vm) :
    read_reg r vm % 65536 = read_reg r vm :=
  Nat.mod_eq_of_lt (hwf.1 _)

theorem mod_mod_eq (a : Nat) : a % 65536 % 65536 = a % 65536 := by omega

theorem read_reg_putc (r : Register) (b : Nat) (vm : Vm) :
    read_reg r (putc b vm) = read_reg r vm := by
  simp [read_reg, putc]

theorem read_reg_puts (r : Register) (bs : List Nat) (vm : Vm) :
    read_reg r (puts bs vm) = read_reg r vm := by
  simp [read_reg, puts]

/-- C1: every PC-relative instruction (LD, LDI, LDR via its base register,
LEA, ST, STI, BR, JSR) fetched from address A with sign-extended offset k
computes its effective address from the already-incremented PC: the address
is (A+1+k) mod 65536 (for LDR, (base+k) mod 65536), never (A+k). -/
theorem claim_C1 (vm : Vm) (dr sr base_r : Register) (k : Nat) (n z p : Bool)
    (hwf : WF vm) (hdr : dr.r < 8) (hsr : sr.r < 8) (hb : base_r.r < 8) :
    (parse (read_mem (read_reg R_PC vm) vm) = Except.ok (Operation.OpLd dr k) →
      (tick vm).map (fun r => (r.1, read_reg dr r.2)) =
        some (Except.ok true, read_mem ((read_reg R_PC vm + 1 + k) % 65536) vm)) ∧
    (parse (read_mem (read_reg R_PC vm) vm) = Except.ok (Operation.OpLdi dr k) →
      (tick vm).map (fun r => (r.1, read_reg dr r.2)) =
        some (Except.ok true, read_mem (read_mem ((read_reg R_PC vm + 1 + k) % 65536) vm) vm)) ∧
    (parse (read_mem (read_reg R_PC vm) vm) = Except.ok (Operation.OpLdr dr base_r k) →
      (tick vm).map (fun r => (r.1, read_reg dr r.2)) =
        some (Except.ok true, read_mem ((read_reg base_r vm + k) % 65536) vm)) ∧
    (parse (read_mem (read_reg R_PC vm) vm) = Except.ok (Operation.OpLea dr k) →
      (tick vm).map (fun r => (r.1, read_reg dr r.2)) =
        some (Except.ok true, (read_reg R_PC vm + 1 + k) % 65536)) ∧
    (parse (read_mem (read_reg R_PC vm) vm) = Except.ok (Operation.OpSt sr k) →
      (tick vm).map (fun r => (r.1, read_mem ((read_reg R_PC vm + 1 + k) % 65536) r.2)) =
        some (Except.ok true, read_reg sr vm)) ∧
    (parse (read_mem (read_reg R_PC vm) vm) = Except.ok (Operation.OpSti sr k) →
      (tick vm).map (fun r => (r.1, read_mem (read_mem ((read_reg R_PC vm + 1 + k) % 65536) vm) r.2)) =
        some (Except.ok true, read_reg sr vm)) ∧
    (parse (read_mem (read_reg R_PC vm) vm) = Except.ok (Operation.OpBr n z p k) →
      ((n = true ∧ 4 &&& read_reg R_COND vm ≠ 0) ∨ (z = true ∧ 2 &&& read_reg R_COND vm ≠ 0)) ∨
        (p = true ∧ 1 &&& read_reg R_COND vm ≠ 0) →
      (tick vm).map (fun r => (r.1, read_reg R_PC r.2)) =
        some (Except.ok true, (read_reg R_PC vm + 1 + k) % 65536)) ∧
    (parse (read_mem (read_reg R_PC vm) vm) = Except.ok (Operation.OpJsr k) →
      (tick vm).map (fun r => (r.1, read_reg R_PC r.2)) =
        some (Except.ok true, (read_reg R_PC vm + 1 + k) % 65536)) := by
  have h8 : dr.r ≠ 8 := by omega
  have h9 : dr.r ≠ 9 := by omega
  have hs8 : sr.r ≠ 8 := by omega
  have hb8 : base_r.r ≠ 8 := by omega
  refine ⟨?_, ?_, ?_, ?_, ?_, ?_, ?_, ?_⟩ <;> intro hm
  case _ =>
    simp only [tick, hm]
    simp [tick_op, read_reg_set_cond_reg, read_reg_write_reg, read_mem_write_reg,
      read_mem_set_cond_reg, mod_add_mod_eq, mod_mod_eq, read_mem_mod _ _ hwf,
      read_reg_mod _ _ hwf, h8, h9, R_PC]
  case _ =>
    simp only [tick, hm]
    simp [tick_op, read_reg_set_cond_reg, read_reg_write_reg, read_mem_write_reg,
      read_mem_set_cond_reg, mod_add_mod_eq, mod_mod_eq, read_mem_mod _ _ hwf,
      read_reg_mod _ _ hwf, h8, h9, R_PC]
  case _ =>
    simp only [tick, hm]
    simp [tick_op, read_reg_set_cond_reg, read_reg_write_reg, read_mem_write_reg,
      read_mem_set_cond_reg, mod_add_mod_eq, mod_mod_eq, read_mem_mod _ _ hwf,
      read_reg_mod _ _ hwf, h8, h9, hb8, R_PC]
  case _ =>
    simp only [tick, hm]
    simp [tick_op, read_reg_set_cond_reg, read_reg_write_reg, read_mem_write_reg,
      read_mem_set_cond_reg, mod_add_mod_eq, mod_mod_eq, read_mem_mod _ _ hwf,
      read_reg_mod _ _ hwf, h8, h9, R_PC]
  case _ =>
    simp only [tick, hm]
    simp [tick_op, read_reg_write_reg, read_mem_write_reg, read_mem_write_mem,
      mod_add_mod_eq, mod_mod_eq, read_mem_mod _ _ hwf, read_reg_mod _ _ hwf,
      hs8, R_PC]
  case _ =>
    simp only [tick, hm]
    simp [tick_op, read_reg_write_reg, read_mem_write_reg, read_mem_write_mem,
      mod_add_mod_eq, mod_mod_eq, read_mem_mod _ _ hwf, read_reg_mod _ _ hwf,
      hs8, R_PC]
  case _ =>
    intro hbr
    simp only [tick, hm]
    simp only [COND_N, COND_Z, COND_P, R_COND] at hbr
    simp at hbr
    simp [tick_op, read_reg_write_reg, COND_N, COND_Z, COND_P, R_COND, R_PC,
      mod_add_mod_eq, mod_mod_eq, hbr]
  case _ =>
    simp only [tick, hm]
    simp [tick_op, read_reg_write_reg, mod_add_mod_eq, mod_mod_eq, R7, R_PC]

/-- Concrete machine for exercising `claim_C1`: PC at the reset address,
the word there encoding `LD R3, #5`, and the word at the effective address
0x3006 holding 321. -/
def vmC1 : Vm :=
  { regs := fun i => if i = 8 then 12288 else if i = 9 then 2 else 0,
    mem := fun a => if a = 12288 then 9733 else if a = 12294 then 321 else 0,
    input := [], output := [] }

theorem vmC1_wf : WF vmC1 := by
  constructor <;> intro i <;> (simp only [vmC1]; split_ifs <;> omega)

/-- Witness for C1 at a concrete input: `LD R3, #5` fetched from 0x3000
loads the word at 0x3006. -/
theorem claim_C1_witness :
    WF vmC1 ∧ (tick vmC1).map (fun r => (r.1, read_reg ⟨3⟩ r.2)) =
      some (Except.ok true, 321) := by
  refine ⟨vmC1_wf, ?_⟩
  have h := (claim_C1 vmC1 ⟨3⟩ ⟨0⟩ ⟨0⟩ 5 false false false vmC1_wf (by decide) (by decide)
    (by decide)).1 (by decide)
  rw [h]
  decide

/-- After writing a destination register (other than the condition register
itself) and running `set_cond_reg` on it, the condition register holds the
flag selected by the written 16-bit value, and that flag is exactly one of
P, Z, N. -/
theorem set_cond_after_write (vm : Vm) (dr : Register) (v : Nat) (h9 : dr.r ≠ 9) :
    read_reg dr (set_cond_reg (write_reg dr v vm) dr) < 65536 ∧
    read_reg R_COND (set_cond_reg (write_reg dr v vm) dr) =
      (if read_reg dr (set_cond_reg (write_reg dr v vm) dr) = 0 then COND_Z
       else if read_reg dr (set_cond_reg (write_reg dr v vm) dr) < 32768 then COND_P
       else COND_N) ∧
    (read_reg R_COND (set_cond_reg (write_reg dr v vm) dr) = 1 ∨
     read_reg R_COND (set_cond_reg (write_reg dr v vm) dr) = 2 ∨
     read_reg R_COND (set_cond_reg (write_reg dr v vm) dr) = 4) := by
  have hv : read_reg dr (set_cond_reg (write_reg dr v vm) dr) = v % 65536 := by
    simp [read_reg_set_cond_reg, read_reg_write_reg, h9]
  have hc : read_reg R_COND (set_cond_reg (write_reg dr v vm) dr) =
      (if v % 65536 = 0 then 2 else if v % 65536 < 32768 then 1 else 4) := by
    simp [read_reg_set_cond_reg, read_reg_write_reg, R_COND, h9]
  refine ⟨by omega, ?_, ?_⟩
  · rw [hv, hc]
    split_ifs <;> simp [COND_P, COND_Z, COND_N]
  · rw [hc]
    split_ifs <;> simp

/-- C2: after every flag-affecting instruction (ADD, AND, LD, LDI, LDR,
LEA, NOT), the condition register holds exactly one of the three flag
values P=1, Z=2, N=4, chosen by the signed interpretation of the value
written to the destination register: 0 gives Z, 1..32767 gives P,
32768..65535 gives N. -/
theorem claim_C2 (vm : Vm) (dr sr1 sr base_r : Register) (arg : Argument) (k : Nat)
    (hdr : dr.r < 8) :
    ∀ op : Operation,
      (op = .OpAdd dr sr1 arg ∨ op = .OpAnd dr sr1 arg ∨ op = .OpLd dr k ∨
        op = .OpLdi dr k ∨ op = .OpLdr dr base_r k ∨ op = .OpLea dr k ∨
        op = .OpNot dr sr) →
      ∃ vm', tick_op op vm = some (Except.ok true, vm') ∧
        read_reg dr vm' < 65536 ∧
        read_reg R_COND vm' =
          (if read_reg dr vm' = 0 then COND_Z
           else if read_reg dr vm' < 32768 then COND_P
           else COND_N) ∧
        (read_reg R_COND vm' = 1 ∨ read_reg R_COND vm' = 2 ∨ read_reg R_COND vm' = 4) := by
  have h9 : dr.r ≠ 9 := by omega
  intro op hop
  rcases hop with h | h | h | h | h | h | h <;> subst h
  · rcases arg with sr2 | imm <;> exact ⟨_, rfl, set_cond_after_write vm dr _ h9⟩
  · rcases arg with sr2 | imm <;> exact ⟨_, rfl, set_cond_after_write vm dr _ h9⟩
  · exact ⟨_, rfl, set_cond_after_write vm dr _ h9⟩
  · exact ⟨_, rfl, set_cond_after_write vm dr _ h9⟩
  · exact ⟨_, rfl, set_cond_after_write vm dr _ h9⟩
  · exact ⟨_, rfl, set_cond_after_write vm dr _ h9⟩
  · exact ⟨_, rfl, set_cond_after_write vm dr _ h9⟩

/-- Witness for C2 at a concrete input: `NOT R0, R1` on the concrete
machine (R1 = 0) writes 65535, whose signed reading is negative, so the
condition register ends up holding exactly the N flag. -/
theorem claim_C2_witness :
    (∃ vm', tick_op (Operation.OpNot ⟨0⟩ ⟨1⟩) vmC1 = some (Except.ok true, vm') ∧
      read_reg ⟨0⟩ vm' < 65536 ∧
      read_reg R_COND vm' =
        (if read_reg ⟨0⟩ vm' = 0 then COND_Z
         else if read_reg ⟨0⟩ vm' < 32768 then COND_P
         else COND_N) ∧
      (read_reg R_COND vm' = 1 ∨ read_reg R_COND vm' = 2 ∨ read_reg R_COND vm' = 4)) ∧
    (tick_op (Operation.OpNot ⟨0⟩ ⟨1⟩) vmC1).map
      (fun r => (r.1, read_reg ⟨0⟩ r.2, read_reg R_COND r.2)) =
      some (Except.ok true, 65535, 4) :=
  ⟨claim_C2 vmC1 ⟨0⟩ ⟨1⟩ ⟨1⟩ ⟨1⟩ (Argument.Immediate 0) 0 (by decide)
      (Operation.OpNot ⟨0⟩ ⟨1⟩) (by simp), by decide⟩

/-- C3: `LDI dr, k` fetched with PC = A reads a pointer word from
(A+1+k) mod 65536, then reads the value at the address held in that
pointer word, writes it to dr, and sets the condition flags from it. -/
theorem claim_C3 (vm : Vm) (dr : Register) (k : Nat) (hwf : WF vm) (hdr : dr.r < 8)
    (hm : parse (read_mem (read_reg R_PC vm) vm) = Except.ok (Operation.OpLdi dr k)) :
    (tick vm).map (fun r => (r.1, read_reg dr r.2, read_reg R_COND r.2)) =
      some (Except.ok true,
        read_mem (read_mem ((read_reg R_PC vm + 1 + k) % 65536) vm) vm,
        if read_mem (read_mem ((read_reg R_PC vm + 1 + k) % 65536) vm) vm = 0 then COND_Z
        else if read_mem (read_mem ((read_reg R_PC vm + 1 + k) % 65536) vm) vm < 32768 then COND_P
        else COND_N) := by
  have h8 : dr.r ≠ 8 := by omega
  have h9 : dr.r ≠ 9 := by omega
  simp only [tick, hm]
  simp [tick_op, read_reg_set_cond_reg, read_reg_write_reg, read_mem_write_reg,
    read_mem_set_cond_reg, mod_add_mod_eq, mod_mod_eq, read_mem_mod _ _ hwf,
    read_reg_mod _ _ hwf, h8, h9, R_PC, R_COND, COND_Z, COND_P, COND_N]

/-- Concrete machine for exercising LDI: the word at the reset address
encodes `LDI R3, #2`, the pointer word at 0x3003 holds 0x4000, and the
word at 0x4000 holds 500. -/
def vmC3 : Vm :=
  { regs := fun i => if i = 8 then 12288 else if i = 9 then 2 else 0,
    mem := fun a => if a = 12288 then 42498 else if a = 12291 then 16384
      else if a = 16384 then 500 else 0,
    input := [], output := [] }

theorem vmC3_wf : WF vmC3 := by
  constructor <;> intro i <;> (simp only [vmC3]; split_ifs <;> omega)

/-- Witness for C3 at a concrete input: the double indirection lands on
500, and the condition flags end up P. -/
theorem claim_C3_witness :
    WF vmC3 ∧ (tick vmC3).map (fun r => (r.1, read_reg ⟨3⟩ r.2, read_reg R_COND r.2)) =
      some (Except.ok true, 500, 1) := by
  refine ⟨vmC3_wf, ?_⟩
  have h := claim_C3 vmC3 ⟨3⟩ 2 vmC3_wf (by decide) (by decide)
  rw [h]
  decide

/-- C4: after a JSR or JSRR fetched from address A, register R7 holds
(A+1) mod 65536 — the post-increment PC, the return address — whatever the
jump target is (for JSRR, whatever base register, R7 included). -/
theorem claim_C4 (vm : Vm) (base_r : Register) (k : Nat) (hb : base_r.r < 8) :
    (parse (read_mem (read_reg R_PC vm) vm) = Except.ok (Operation.OpJsr k) →
      (tick vm).map (fun r => (r.1, read_reg R7 r.2)) =
        some (Except.ok true, (read_reg R_PC vm + 1) % 65536)) ∧
    (parse (read_mem (read_reg R_PC vm) vm) = Except.ok (Operation.OpJsrr base_r) →
      (tick vm).map (fun r => (r.1, read_reg R7 r.2)) =
        some (Except.ok true, (read_reg R_PC vm + 1) % 65536)) := by
  constructor <;> intro hm <;>
    (simp only [tick, hm]
     simp [tick_op, read_reg_write_reg, mod_mod_eq, R7, R_PC])

/-- Concrete machine for exercising JSRR through R7: the word at the reset
address encodes `JSRR R7`, and R7 initially holds 999. -/
def vmC4 : Vm :=
  { regs := fun i => if i = 7 then 999 else if i = 8 then 12288 else if i = 9 then 2 else 0,
    mem := fun a => if a = 12288 then 16832 else 0,
    input := [], output := [] }

/-- Witness for C4 at a concrete input: after `JSRR R7` fetched from
0x3000, R7 holds 0x3001, not its previous value 999. -/
theorem claim_C4_witness :
    (tick vmC4).map (fun r => (r.1, read_reg R7 r.2)) = some (Except.ok true, 12289) := by
  have h := (claim_C4 vmC4 ⟨7⟩ 0 (by decide)).2 (by decide)
  rw [h]
  decide

/-- C10: for `JSRR` with base register R7, the return-address write
R7 ← post-increment PC happens before the base register is read, so the
new PC equals the post-increment PC, not R7's previous value. -/
theorem claim_C10 (vm : Vm)
    (hm : parse (read_mem (read_reg R_PC vm) vm) = Except.ok (Operation.OpJsrr R7)) :
    (tick vm).map (fun r => (r.1, read_reg R_PC r.2, read_reg R7 r.2)) =
      some (Except.ok true, (read_reg R_PC vm + 1) % 65536, (read_reg R_PC vm + 1) % 65536) := by
  simp only [tick, hm]
  simp [tick_op, read_reg_write_reg, mod_mod_eq, R7, R_PC]

/-- Witness for C10 at a concrete input: `JSRR R7` fetched from 0x3000
with R7 = 999 sets both the PC and R7 to 0x3001. -/
theorem claim_C10_witness :
    (tick vmC4).map (fun r => (r.1, read_reg R_PC r.2, read_reg R7 r.2)) =
      some (Except.ok true, 12289, 12289) := by
  have h := claim_C10 vmC4 (by decide)
  rw [h]
  decide

theorem run_succ (fuel : Nat) (vm : Vm) :
    run (fuel + 1) vm =
      match tick vm with
      | none => none
      | some (Except.ok true, vm1) => run fuel vm1
      | some (Except.ok false, vm1) => some (Except.ok (), vm1)
      | some (Except.error e, vm1) => some (Except.error e, vm1) := rfl

/-- C5: with memory at the reset address holding the encoding of
`ADD R0, R1, R2`, R1 = 5 and R2 = 7, one step yields R0 = 12, flags = P
and PC = reset+1; with the next word holding `TRAP 0x25`, one further step
returns Halted, and the driver loop returns success. -/
theorem claim_C5 (vm : Vm) (hwf : WF vm)
    (hpc : read_reg R_PC vm = 12288)
    (h1 : read_mem 12288 vm = 4162) (h2 : read_mem 12289 vm = 61477)
    (hr1 : read_reg ⟨1⟩ vm = 5) (hr2 : read_reg ⟨2⟩ vm = 7) :
    ∃ vm1 vm2,
      tick vm = some (Except.ok true, vm1) ∧
      read_reg R0 vm1 = 12 ∧ read_reg R_COND vm1 = COND_P ∧ read_reg R_PC vm1 = 12289 ∧
      tick vm1 = some (Except.ok false, vm2) ∧
      run 2 vm = some (Except.ok (), vm2) := by
  have hpc8 : read_reg ⟨8⟩ vm = 12288 := hpc
  have hparse1 : parse (read_mem (read_reg R_PC vm) vm) =
      Except.ok (Operation.OpAdd ⟨0⟩ ⟨1⟩ (Argument.Register ⟨2⟩)) := by
    rw [hpc, h1]; decide
  have e1 : tick vm = some (Except.ok true,
      set_cond_reg (write_reg ⟨0⟩ 12 (write_reg ⟨8⟩ 12289 vm)) ⟨0⟩) := by
    simp only [tick, hparse1]
    simp [tick_op, read_reg_write_reg, hpc8, hr1, hr2, R_PC]
  have f2 : read_reg R0 (set_cond_reg (write_reg ⟨0⟩ 12 (write_reg ⟨8⟩ 12289 vm)) ⟨0⟩) = 12 := by
    simp [read_reg_set_cond_reg, read_reg_write_reg, R0]
  have f3 : read_reg R_COND
      (set_cond_reg (write_reg ⟨0⟩ 12 (write_reg ⟨8⟩ 12289 vm)) ⟨0⟩) = COND_P := by
    simp [read_reg_set_cond_reg, read_reg_write_reg, R_COND, COND_P]
  have f4 : read_reg ⟨8⟩ (set_cond_reg (write_reg ⟨0⟩ 12 (write_reg ⟨8⟩ 12289 vm)) ⟨0⟩) = 12289 := by
    simp [read_reg_set_cond_reg, read_reg_write_reg]
  have f4' : read_reg R_PC (set_cond_reg (write_reg ⟨0⟩ 12 (write_reg ⟨8⟩ 12289 vm)) ⟨0⟩) = 12289 := f4
  have hmem2 : read_mem 12289 (set_cond_reg (write_reg ⟨0⟩ 12 (write_reg ⟨8⟩ 12289 vm)) ⟨0⟩) = 61477 := by
    simp [read_mem_set_cond_reg, read_mem_write_reg, h2]
  have hparse2 : parse (read_mem
      (read_reg R_PC (set_cond_reg (write_reg ⟨0⟩ 12 (write_reg ⟨8⟩ 12289 vm)) ⟨0⟩))
      (set_cond_reg (write_reg ⟨0⟩ 12 (write_reg ⟨8⟩ 12289 vm)) ⟨0⟩)) =
      Except.ok (Operation.OpTrap 37) := by
    rw [f4', hmem2]; decide
  have e2 : tick (set_cond_reg (write_reg ⟨0⟩ 12 (write_reg ⟨8⟩ 12289 vm)) ⟨0⟩) =
      some (Except.ok false, write_reg ⟨7⟩ 12290
        (write_reg ⟨8⟩ 12290 (set_cond_reg (write_reg ⟨0⟩ 12 (write_reg ⟨8⟩ 12289 vm)) ⟨0⟩))) := by
    simp only [tick, hparse2]
    simp [tick_op, trap, read_reg_write_reg, f4, R_PC, R7]
  refine ⟨_, _, e1, f2, f3, f4', e2, ?_⟩
  show run (0 + 1 + 1) vm = _
  rw [run_succ, e1]
  show run (0 + 1) (set_cond_reg (write_reg ⟨0⟩ 12 (write_reg ⟨8⟩ 12289 vm)) ⟨0⟩) = _
  rw [run_succ, e2]

/-- Concrete machine for the halt scenario: built with the engine's own
`init`, R1 = 5, R2 = 7, memory seeded with `ADD R0,R1,R2` then
`TRAP 0x25`. -/
def vmC5 : Vm :=
  init { regs := fun i => if i = 1 then 5 else if i = 2 then 7 else 0,
         mem := fun a => if a = 12288 then 4162 else if a = 12289 then 61477 else 0,
         input := [], output := [] }

theorem vmC5_wf : WF vmC5 := by
  constructor <;> intro i <;>
    (simp only [vmC5, init, write_reg, R_PC, R_COND, R_PC_INIT, COND_Z]; split_ifs <;> omega)

/-- Witness for C5 at the concrete seeded machine. -/
theorem claim_C5_witness :
    ∃ vm1 vm2,
      tick vmC5 = some (Except.ok true, vm1) ∧
      read_reg R0 vm1 = 12 ∧ read_reg R_COND vm1 = COND_P ∧ read_reg R_PC vm1 = 12289 ∧
      tick vm1 = some (Except.ok false, vm2) ∧
      run 2 vmC5 = some (Except.ok (), vm2) :=
  claim_C5 vmC5 vmC5_wf (by decide) (by decide) (by decide) (by decide) (by decide)

/-- Concrete machine whose fetched word 0xD000 has the reserved opcode 13:
it decodes to no known instruction. -/
def vmC6 : Vm :=
  { regs := fun i => if i = 8 then 12288 else 0,
    mem := fun _ => 53248,
    input := [], output := [] }

/-- Counterexample to C6 as stated: on a word that decodes to no known
opcode, the step returns the decode error but the PC has NOT been
incremented — it still equals the fetch address 12288, not 12289.  (In the
source, `tick` increments the PC only after a successful decode.) -/
theorem claim_C6_counterexample :
    tick vmC6 = some (Except.error (TickError.Parse (ParseError.UnknownOpcode 53248)), vmC6) ∧
    (tick vmC6).map (fun r => read_reg R_PC r.2) = some 12288 ∧
    ¬ (tick vmC6).map (fun r => read_reg R_PC r.2) = some (12288 + 1) := by
  refine ⟨rfl, by decide, by decide⟩

/-- C6 (amended): a fetched word that decodes to no known opcode makes the
step return a decode error and mutates no register at all — including the
PC, which still holds the fetch address, because the source increments the
PC only after a successful decode. -/
theorem claim_C6 (vm : Vm) (e : ParseError)
    (hm : parse (read_mem (read_reg R_PC vm) vm) = Except.error e) :
    (tick vm).map Prod.fst = some (Except.error (TickError.Parse e)) ∧
    ∀ r : Register, (tick vm).map (fun x => read_reg r x.2) = some (read_reg r vm) := by
  simp [tick, hm]

/-- Witness for C6 (amended) at the concrete unknown-opcode machine. -/
theorem claim_C6_witness :
    (tick vmC6).map Prod.fst =
      some (Except.error (TickError.Parse (ParseError.UnknownOpcode 53248))) ∧
    (tick vmC6).map (fun x => read_reg R_PC x.2) = some 12288 := by
  have h := claim_C6 vmC6 (ParseError.UnknownOpcode 53248) (by decide)
  refine ⟨h.1, ?_⟩
  rw [h.2 R_PC]
  decide

/-- C7: when decoding the fetched word fails, the step immediately returns
the decode-failure variant of the step error, and the state it hands back
is exactly the pre-step state — in particular the PC is unmodified. -/
theorem claim_C7 (vm : Vm) (e : ParseError)
    (hm : parse (read_mem (read_reg R_PC vm) vm) = Except.error e) :
    tick vm = some (Except.error (TickError.Parse e), vm) := by
  simp [tick, hm]

/-- Witness for C7 at the concrete unknown-opcode machine. -/
theorem claim_C7_witness :
    tick vmC6 = some (Except.error (TickError.Parse (ParseError.UnknownOpcode 53248)), vmC6) :=
  claim_C7 vmC6 (ParseError.UnknownOpcode 53248) (by decide)

/-- C8: ADD and AND results, the per-step PC increment, and every
PC-relative address computation (the LD, LDI, LDR, LEA, ST, STI, BR and
JSR call sites of `wrapping_add`) are reduced modulo 65536: for every
operand value — including sums exceeding 65535 — the operation succeeds,
never panics, the computed address is a wrapped 16-bit value, and the
result is the wrapped value. -/
theorem claim_C8 (vm : Vm) (dr sr1 sr2 sr base_r : Register) (imm k : Nat) (n z p : Bool)
    (hwf : WF vm) (hdr : dr.r < 8) (hsr : sr.r < 8) (hb : base_r.r < 8) :
    (∃ vm', tick_op (Operation.OpAdd dr sr1 (Argument.Register sr2)) vm =
        some (Except.ok true, vm') ∧
      read_reg dr vm' = (read_reg sr1 vm + read_reg sr2 vm) % 65536 ∧
      read_reg dr vm' < 65536) ∧
    (∃ vm', tick_op (Operation.OpAdd dr sr1 (Argument.Immediate imm)) vm =
        some (Except.ok true, vm') ∧
      read_reg dr vm' = (read_reg sr1 vm + imm) % 65536 ∧
      read_reg dr vm' < 65536) ∧
    (∃ vm', tick_op (Operation.OpAnd dr sr1 (Argument.Register sr2)) vm =
        some (Except.ok true, vm') ∧
      read_reg dr vm' = (read_reg sr1 vm &&& read_reg sr2 vm) % 65536 ∧
      read_reg dr vm' < 65536) ∧
    (∃ vm', tick_op (Operation.OpAnd dr sr1 (Argument.Immediate imm)) vm =
        some (Except.ok true, vm') ∧
      read_reg dr vm' = (read_reg sr1 vm &&& imm) % 65536 ∧
      read_reg dr vm' < 65536) ∧
    (parse (read_mem (read_reg R_PC vm) vm) = Except.ok (Operation.OpSt sr k) →
      (tick vm).map (fun r => (r.1, read_reg R_PC r.2)) =
        some (Except.ok true, (read_reg R_PC vm + 1) % 65536) ∧
      (read_reg R_PC vm + 1) % 65536 < 65536) ∧
    (parse (read_mem (read_reg R_PC vm) vm) = Except.ok (Operation.OpLd dr k) →
      (tick vm).map (fun r => (r.1, read_reg dr r.2)) =
        some (Except.ok true, read_mem ((read_reg R_PC vm + 1 + k) % 65536) vm) ∧
      (read_reg R_PC vm + 1 + k) % 65536 < 65536) ∧
    (parse (read_mem (read_reg R_PC vm) vm) = Except.ok (Operation.OpLdi dr k) →
      (tick vm).map (fun r => (r.1, read_reg dr r.2)) =
        some (Except.ok true, read_mem (read_mem ((read_reg R_PC vm + 1 + k) % 65536) vm) vm) ∧
      (read_reg R_PC vm + 1 + k) % 65536 < 65536 ∧
      read_mem ((read_reg R_PC vm + 1 + k) % 65536) vm < 65536) ∧
    (parse (read_mem (read_reg R_PC vm) vm) = Except.ok (Operation.OpLdr dr base_r k) →
      (tick vm).map (fun r => (r.1, read_reg dr r.2)) =
        some (Except.ok true, read_mem ((read_reg base_r vm + k) % 65536) vm) ∧
      (read_reg base_r vm + k) % 65536 < 65536) ∧
    (parse (read_mem (read_reg R_PC vm) vm) = Except.ok (Operation.OpLea dr k) →
      (tick vm).map (fun r => (r.1, read_reg dr r.2)) =
        some (Except.ok true, (read_reg R_PC vm + 1 + k) % 65536) ∧
      (read_reg R_PC vm + 1 + k) % 65536 < 65536) ∧
    (parse (read_mem (read_reg R_PC vm) vm) = Except.ok (Operation.OpSt sr k) →
      (tick vm).map (fun r => (r.1, read_mem ((read_reg R_PC vm + 1 + k) % 65536) r.2)) =
        some (Except.ok true, read_reg sr vm) ∧
      (read_reg R_PC vm + 1 + k) % 65536 < 65536) ∧
    (parse (read_mem (read_reg R_PC vm) vm) = Except.ok (Operation.OpSti sr k) →
      (tick vm).map (fun r => (r.1, read_mem (read_mem ((read_reg R_PC vm + 1 + k) % 65536) vm) r.2)) =
        some (Except.ok true, read_reg sr vm) ∧
      (read_reg R_PC vm + 1 + k) % 65536 < 65536) ∧
    (parse (read_mem (read_reg R_PC vm) vm) = Except.ok (Operation.OpBr n z p k) →
      ((n = true ∧ 4 &&& read_reg R_COND vm ≠ 0) ∨ (z = true ∧ 2 &&& read_reg R_COND vm ≠ 0)) ∨
        (p = true ∧ 1 &&& read_reg R_COND vm ≠ 0) →
      (tick vm).map (fun r => (r.1, read_reg R_PC r.2)) =
        some (Except.ok true, (read_reg R_PC vm + 1 + k) % 65536) ∧
      (read_reg R_PC vm + 1 + k) % 65536 < 65536) ∧
    (parse (read_mem (read_reg R_PC vm) vm) = Except.ok (Operation.OpJsr k) →
      (tick vm).map (fun r => (r.1, read_reg R_PC r.2)) =
        some (Except.ok true, (read_reg R_PC vm + 1 + k) % 65536) ∧
      (read_reg R_PC vm + 1 + k) % 65536 < 65536) := by
  have h9 : dr.r ≠ 9 := by omega
  have h8 : dr.r ≠ 8 := by omega
  have hs8 : sr.r ≠ 8 := by omega
  have hb8 : base_r.r ≠ 8 := by omega
  refine ⟨?_, ?_, ?_, ?_, ?_, ?_, ?_, ?_, ?_, ?_, ?_, ?_, ?_⟩
  · refine ⟨_, rfl, ?_, ?_⟩ <;>
      simp [read_reg_set_cond_reg, read_reg_write_reg, h9, mod_mod_eq] <;> omega
  · refine ⟨_, rfl, ?_, ?_⟩ <;>
      simp [read_reg_set_cond_reg, read_reg_write_reg, h9, mod_mod_eq] <;> omega
  · refine ⟨_, rfl, ?_, ?_⟩ <;>
      simp [read_reg_set_cond_reg, read_reg_write_reg, h9, mod_mod_eq] <;> omega
  · refine ⟨_, rfl, ?_, ?_⟩ <;>
      simp [read_reg_set_cond_reg, read_reg_write_reg, h9, mod_mod_eq] <;> omega
  · intro hm
    refine ⟨?_, by omega⟩
    simp only [tick, hm]
    simp [tick_op, read_reg_write_reg, read_reg_write_mem, mod_mod_eq, R_PC]
  · intro hm
    refine ⟨?_, by omega⟩
    simp only [tick, hm]
    simp [tick_op, read_reg_set_cond_reg, read_reg_write_reg, read_mem_write_reg,
      read_mem_set_cond_reg, mod_add_mod_eq, mod_mod_eq, read_mem_mod _ _ hwf,
      read_reg_mod _ _ hwf, h8, h9, R_PC]
  · intro hm
    refine ⟨?_, by omega, hwf.2 _⟩
    simp only [tick, hm]
    simp [tick_op, read_reg_set_cond_reg, read_reg_write_reg, read_mem_write_reg,
      read_mem_set_cond_reg, mod_add_mod_eq, mod_mod_eq, read_mem_mod _ _ hwf,
      read_reg_mod _ _ hwf, h8, h9, R_PC]
  · intro hm
    refine ⟨?_, by omega⟩
    simp only [tick, hm]
    simp [tick_op, read_reg_set_cond_reg, read_reg_write_reg, read_mem_write_reg,
      read_mem_set_cond_reg, mod_add_mod_eq, mod_mod_eq, read_mem_mod _ _ hwf,
      read_reg_mod _ _ hwf, h8, h9, hb8, R_PC]
  · intro hm
    refine ⟨?_, by omega⟩
    simp only [tick, hm]
    simp [tick_op, read_reg_set_cond_reg, read_reg_write_reg, read_mem_write_reg,
      read_mem_set_cond_reg, mod_add_mod_eq, mod_mod_eq, read_mem_mod _ _ hwf,
      read_reg_mod _ _ hwf, h8, h9, R_PC]
  · intro hm
    refine ⟨?_, by omega⟩
    simp only [tick, hm]
    simp [tick_op, read_reg_write_reg, read_mem_write_reg, read_mem_write_mem,
      mod_add_mod_eq, mod_mod_eq, read_mem_mod _ _ hwf, read_reg_mod _ _ hwf,
      hs8, R_PC]
  · intro hm
    refine ⟨?_, by omega⟩
    simp only [tick, hm]
    simp [tick_op, read_reg_write_reg, read_mem_write_reg, read_mem_write_mem,
      mod_add_mod_eq, mod_mod_eq, read_mem_mod _ _ hwf, read_reg_mod _ _ hwf,
      hs8, R_PC]
  · intro hm hbr
    refine ⟨?_, by omega⟩
    simp only [tick, hm]
    simp only [COND_N, COND_Z, COND_P, R_COND] at hbr
    simp at hbr
    simp [tick_op, read_reg_write_reg, COND_N, COND_Z, COND_P, R_COND, R_PC,
      mod_add_mod_eq, mod_mod_eq, hbr]
  · intro hm
    refine ⟨?_, by omega⟩
    simp only [tick, hm]
    simp [tick_op, read_reg_write_reg, mod_add_mod_eq, mod_mod_eq, R7, R_PC]

/-- Concrete machine with R1 = 60000 and R2 = 30000, whose sum exceeds
the 16-bit range. -/
def vmC8 : Vm :=
  { regs := fun i => if i = 1 then 60000 else if i = 2 then 30000 else 0,
    mem := fun _ => 0,
    input := [], output := [] }

theorem vmC8_wf : WF vmC8 := by
  constructor <;> intro i <;> (simp only [vmC8]; try split_ifs) <;> omega

/-- Witness for C8 at concrete inputs: adding 60000 + 30000 wraps to
24464 rather than failing, and the LD address computation on the concrete
LD machine resolves to the wrapped address 0x3006. -/
theorem claim_C8_witness :
    (∃ vm', tick_op (Operation.OpAdd ⟨0⟩ ⟨1⟩ (Argument.Register ⟨2⟩)) vmC8 =
        some (Except.ok true, vm') ∧
      read_reg ⟨0⟩ vm' = (read_reg ⟨1⟩ vmC8 + read_reg ⟨2⟩ vmC8) % 65536 ∧
      read_reg ⟨0⟩ vm' < 65536) ∧
    (tick_op (Operation.OpAdd ⟨0⟩ ⟨1⟩ (Argument.Register ⟨2⟩)) vmC8).map
      (fun r => (r.1, read_reg ⟨0⟩ r.2)) = some (Except.ok true, 24464) ∧
    ((tick vmC1).map (fun r => (r.1, read_reg ⟨3⟩ r.2)) =
        some (Except.ok true, read_mem ((read_reg R_PC vmC1 + 1 + 5) % 65536) vmC1) ∧
      (read_reg R_PC vmC1 + 1 + 5) % 65536 < 65536) :=
  ⟨(claim_C8 vmC8 ⟨0⟩ ⟨1⟩ ⟨2⟩ ⟨0⟩ ⟨0⟩ 0 0 false false false vmC8_wf
      (by decide) (by decide) (by decide)).1,
   by decide,
   (claim_C8 vmC1 ⟨3⟩ ⟨0⟩ ⟨0⟩ ⟨0⟩ ⟨0⟩ 0 5 false false false vmC1_wf
      (by decide) (by decide) (by decide)).2.2.2.2.2.1 (by decide)⟩

/-- C9: every TRAP instruction with a supported vector (0x20 GETC,
0x21 OUT, 0x22 PUTS, 0x25 HALT) writes R7 ← post-increment PC before the
trap dispatch runs; in particular a step that returns Halted still leaves
R7 holding the address following the TRAP instruction. -/
theorem claim_C9 (vm : Vm) (v : Nat)
    (hv : v = 32 ∨ v = 33 ∨ v = 34 ∨ v = 37)
    (hm : parse (read_mem (read_reg R_PC vm) vm) = Except.ok (Operation.OpTrap v)) :
    (tick vm).map (fun x => read_reg R7 x.2) = some ((read_reg R_PC vm + 1) % 65536) ∧
    (v = 37 → (tick vm).map Prod.fst = some (Except.ok false)) := by
  rcases hv with h | h | h | h <;> subst h
  · constructor
    · simp only [tick, hm]
      cases hin : vm.input <;>
        simp [tick_op, trap, getc, read_reg, write_reg, hin, mod_mod_eq, R7, R0, R_PC]
    · intro h37; omega
  · constructor
    · simp only [tick, hm]
      simp [tick_op, trap, putc, read_reg, write_reg, mod_mod_eq, R7, R0, R_PC]
    · intro h37; omega
  · constructor
    · simp only [tick, hm]
      simp [tick_op, trap, puts, read_reg, write_reg, mod_mod_eq, R7, R0, R_PC]
    · intro h37; omega
  · constructor
    · simp only [tick, hm]
      simp [tick_op, trap, read_reg, write_reg, mod_mod_eq, R7, R_PC]
    · intro h37
      simp only [tick, hm]
      simp [tick_op, trap]

/-- Concrete machine whose fetched word encodes `TRAP 0x25`. -/
def vmC9 : Vm :=
  { regs := fun i => if i = 8 then 12288 else 0,
    mem := fun _ => 61477,
    input := [], output := [] }

/-- Witness for C9 at a concrete input: `TRAP 0x25` fetched from 0x3000
halts and still sets R7 to 0x3001. -/
theorem claim_C9_witness :
    (tick vmC9).map (fun x => read_reg R7 x.2) = some 12289 ∧
    (tick vmC9).map Prod.fst = some (Except.ok false) := by
  have h := claim_C9 vmC9 37 (by decide) (by decide)
  refine ⟨?_, h.2 rfl⟩
  rw [h.1]
  decide

end Lc3
